import Mathlib

/-!
Verification of the client-side AutoNAT v2 behaviour and the
listener-presence filter of `rust-libp2p`.

The definitions below are a shallow embedding of
`protocols/autonat/src/v2/client/behaviour.rs` and
`swarm/src/listener_presence.rs`:

* Rust `HashMap<K, V>` fields are modelled as association lists
  `List (K × V)`; updates through `get_mut`/`entry` are modelled by
  `AL.modifyP` (which rewrites every pair with the given key — on the
  reachable states, where keys are unique, this coincides with the map
  semantics) and `AL.entryOrDefault`.
* `VecDeque` (used FIFO: `push_back` / `pop_front`) is a `List` whose head
  is the front.
* The injected RNG (`R: RngCore`) is modelled by a `Nat` seed and the step
  function `rngStep`; `Iterator::choose(&mut rng)` is modelled by
  `rand_choose`, which picks the element indexed by the drawn value modulo
  the length, consuming one draw.
* The `futures_timer::Delay` tick timer is modelled by a `Nat` field
  `next_tick` holding the remaining time; the timer has elapsed iff it is
  `0`, and `Delay::reset(probe_interval)` sets it to `probe_interval`.
* Multiaddresses are ordered stacks of protocol components; only the
  protocol tag (and, for `ip4`/`ip6`, whether the carried address is
  globally routable) is relevant to this code, so a component is modelled
  by the inductive `Proto`.
-/

/-! ### Multiaddresses -/

/-- One protocol component of a multiaddress.  `ip4`/`ip6` carry whether
their IP address is globally routable (the only fact `addr_is_local`
inspects); every other component is represented by its protocol tag. -/
inductive Proto where
  | ip4 (global : Bool)
  | ip6 (global : Bool)
  | other (tag : String)
deriving DecidableEq, Repr

/-- The protocol tag of a component, as returned by
`Multiaddr::protocol_stack`. -/
def Proto.tag : Proto → String
  | .ip4 _ => "ip4"
  | .ip6 _ => "ip6"
  | .other t => t

/-- A multiaddress: an ordered stack of protocol components. -/
abbrev Multiaddr := List Proto

/-- `Multiaddr::protocol_stack`: the ordered list of protocol tags. -/
def protocol_stack (a : Multiaddr) : List String :=
  a.map Proto.tag

/-! ### The listener-presence filter (`swarm/src/listener_presence.rs`) -/

/-- `is_not_protocol` from `listener_presence.rs`: `true` iff the tag is
not one of the ignored address-like tags. -/
def is_not_protocol (tag : String) : Bool :=
  !(tag = "dns" || tag = "dns4" || tag = "dns6" || tag = "dnsaddr" ||
    tag = "ip4" || tag = "ip6" || tag = "p2p")

/-- `clean_multiaddr` from `listener_presence.rs`: the protocol stack of
the address, with the ignored tags filtered out. -/
def clean_multiaddr (address : Multiaddr) : List String :=
  (protocol_stack address).filter (fun e => is_not_protocol e)

/-- The `ListenerPresence` filter: the `HashSet<Vec<&str>>` of signatures
is modelled as the list of its elements. -/
structure ListenerPresence where
  inner : List (List String)
deriving Repr

/-- `FromIterator<&Multiaddr> for ListenerPresence`: bulk construction,
cleaning every address. -/
def ListenerPresence.fromAddrs (addrs : List Multiaddr) : ListenerPresence :=
  { inner := addrs.map clean_multiaddr }

/-- `ListenerPresence::contains`. -/
def ListenerPresence.containsAddr (lp : ListenerPresence) (address : Multiaddr) : Bool :=
  lp.inner.contains (clean_multiaddr address)

/-! ### AutoNAT v2 client: data model (`behaviour.rs`) -/

abbrev PeerId := Nat
abbrev ConnectionId := Nat
abbrev Nonce := Nat

/-- `NonceStatus` from `behaviour.rs`. -/
inductive NonceStatus where
  | pending
  | received
deriving DecidableEq, Repr

/-- `ConnectionInfo` from `behaviour.rs`. -/
structure ConnectionInfo where
  peer_id : PeerId
  supports_autonat : Bool
  is_local : Bool
deriving DecidableEq, Repr

/-- `AddressInfo` from `behaviour.rs`. -/
structure AddressInfo where
  score : Nat
  is_tested : Bool
deriving DecidableEq, Repr

instance : Inhabited AddressInfo := ⟨{ score := 0, is_tested := false }⟩

/-- `Config` from `behaviour.rs` (`probe_interval` in abstract time
units). -/
structure Config where
  max_candidates : Nat
  probe_interval : Nat
deriving DecidableEq, Repr

/-- `Config::default()`: 10 candidates, 5 second interval. -/
def Config.default : Config :=
  { max_candidates := 10, probe_interval := 5 }

/-- `DialRequest` from `protocol.rs` (the wire payload handed to the
dial-request handler). -/
structure DialRequest where
  nonce : Nonce
  addrs : List Multiaddr
deriving DecidableEq, Repr

/-- `TestEnd` from the handler module: a successful test outcome. -/
structure TestEnd where
  dial_request : DialRequest
  reachable_addr : Multiaddr
deriving DecidableEq, Repr

/-- `dial_request::InternalError`: the error kinds matched by
`on_connection_handler_event`.  `otherKind` stands for the remaining
handler-internal variants, all handled by the catch-all arm. -/
inductive InternalError where
  | failureDuringDialBack (addr : Option Multiaddr)
  | unableToConnectOnSelectedAddress (addr : Option Multiaddr)
  | internalServer
  | dataRequestTooLarge
  | dataRequestTooSmall
  | invalidResponse
  | serverRejectedDialRequest
  | invalidReferencedAddress
  | serverChoseNotToDialAnyAddress
  | otherKind (tag : String)
deriving DecidableEq, Repr

/-- `Error` from `behaviour.rs`: an opaque wrapper around
`InternalError`. -/
structure BehaviourError where
  internal : InternalError
deriving DecidableEq, Repr

instance {ε α : Type} [DecidableEq ε] [DecidableEq α] : DecidableEq (Except ε α) := fun x y =>
  match x, y with
  | .error a, .error b =>
      match decEq a b with
      | isTrue h => isTrue (by rw [h])
      | isFalse h => isFalse (by intro hc; cases hc; exact h rfl)
  | .error _, .ok _ => isFalse (by intro hc; cases hc)
  | .ok _, .error _ => isFalse (by intro hc; cases hc)
  | .ok a, .ok b =>
      match decEq a b with
      | isTrue h => isTrue (by rw [h])
      | isFalse h => isFalse (by intro hc; cases hc; exact h rfl)

/-- `Event` from `behaviour.rs`: the user-visible per-probe report. -/
structure Event where
  tested_addr : Option Multiaddr
  bytes_sent : Nat
  server : PeerId
  result : Except BehaviourError Unit
deriving DecidableEq, Repr

/-- `InternalStatusUpdate` carried by
`dial_request::ToBehaviour::TestCompleted`. -/
structure InternalStatusUpdate where
  tested_addr : Option Multiaddr
  bytes_sent : Nat
  server : Option PeerId
  result : Except BehaviourError TestEnd
  server_no_support : Bool
deriving DecidableEq, Repr

/-- The directives the behaviour enqueues for the swarm (`ToSwarm`);
only the three variants this behaviour produces. -/
inductive ToSwarmEv where
  | externalAddrConfirmed (addr : Multiaddr)
  | generateEvent (ev : Event)
  | notifyHandler (peer : PeerId) (conn : ConnectionId) (req : DialRequest)
deriving DecidableEq, Repr

/-- The handler-to-behaviour events
(`Either<dial_request::ToBehaviour, u64>`): a bare dial-back nonce
(`Either::Right`), `PeerHasServerSupport`, or `TestCompleted`. -/
inductive HandlerEvent where
  | dialBackNonce (nonce : Nonce)
  | peerHasServerSupport
  | testCompleted (update : InternalStatusUpdate)
deriving DecidableEq, Repr

/-- The swarm events the behaviour consumes (`FromSwarm`); `otherEv`
stands for every ignored variant.  `connectionEstablished` carries the
remote address of the endpoint, from which `is_local` is computed. -/
inductive FromSwarmEv where
  | newExternalAddrCandidate (addr : Multiaddr)
  | externalAddrConfirmedEv (addr : Multiaddr)
  | connectionEstablished (peer : PeerId) (conn : ConnectionId) (remote_addr : Multiaddr)
  | connectionClosed (peer : PeerId) (conn : ConnectionId)
  | dialFailure (peer : Option PeerId) (conn : ConnectionId)
  | otherEv
deriving DecidableEq, Repr

/-! ### Association-list operations modelling `HashMap` -/

/-- Lookup in an association list (`HashMap::get`). -/
def AL.lookup {K V : Type} [DecidableEq K] (l : List (K × V)) (key : K) : Option V :=
  match l with
  | [] => none
  | p :: rest => if p.1 = key then some p.2 else AL.lookup rest key

/-- Update the value at a key in place (`HashMap::get_mut` followed by a
mutation).  Every pair with the key is rewritten; on states with unique
keys this is exactly the map update, and when the key is absent the list
is unchanged. -/
def AL.modifyP {K V : Type} [DecidableEq K] (l : List (K × V)) (key : K) (f : V → V) :
    List (K × V) :=
  l.map (fun p => if p.1 = key then (p.1, f p.2) else p)

/-- `HashMap::entry(key).or_insert(dflt)` / `or_default()`: insert the
default value only when the key is absent. -/
def AL.entryOrDefault {K V : Type} [DecidableEq K] (l : List (K × V)) (key : K) (dflt : V) :
    List (K × V) :=
  if l.any (fun p => p.1 = key) then l else l ++ [(key, dflt)]

/-- `HashMap::insert` (as used for fresh nonces). -/
def AL.insertKV {K V : Type} [DecidableEq K] (l : List (K × V)) (key : K) (v : V) :
    List (K × V) :=
  (key, v) :: l.filter (fun p => !(p.1 = key))

/-! ### The behaviour state -/

/-- `Behaviour<R>` from `behaviour.rs`.  `rng` is the state of the
injected RNG; `pending_events` is the FIFO directive queue (head =
front); `next_tick` is the remaining time of the tick timer (elapsed iff
`0`). -/
structure Behaviour where
  pending_nonces : List (Nonce × NonceStatus)
  rng : Nat
  config : Config
  pending_events : List ToSwarmEv
  address_candidates : List (Multiaddr × AddressInfo)
  already_tested : List Multiaddr
  next_tick : Nat
  peer_info : List (ConnectionId × ConnectionInfo)
deriving DecidableEq, Repr

/-- `Behaviour::new(rng, config)`. -/
def Behaviour.new (rng : Nat) (config : Config) : Behaviour :=
  { pending_nonces := []
    rng := rng
    config := config
    pending_events := []
    address_candidates := []
    already_tested := []
    next_tick := config.probe_interval
    peer_info := [] }

/-- One draw of the modelled RNG: the drawn value and the successor
state. -/
def rngStep (seed : Nat) : Nat × Nat :=
  (seed, seed + 1)

/-- `Iterator::choose(&mut rng)`: pick one element of the collection
using the drawn value, `none` on an empty collection. -/
def rand_choose {α : Type} (draw : Nat) (l : List α) : Option α :=
  l.get? (draw % l.length)

/-- `addr_is_local` from `behaviour.rs`: true iff some `ip4`/`ip6`
component is not globally routable. -/
def addr_is_local (addr : Multiaddr) : Bool :=
  addr.any (fun c =>
    match c with
    | .ip4 g => !g
    | .ip6 g => !g
    | .other _ => false)

/-! ### The behaviour operations (`behaviour.rs`) -/

/-- `Behaviour::handle_no_connection`: remove the `peer_info` entries
whose key is `connection_id` and whose peer is `peer_id`, then clear
`supports_autonat` on every remaining record of `peer_id`.  (The counts
`known_servers_n` / `changed_n` computed by the source only feed a trace
log and are not modelled.) -/
def handle_no_connection (b : Behaviour) (peer_id : PeerId) (connection_id : ConnectionId) :
    Behaviour :=
  let peer_info1 := b.peer_info.filter
    (fun p => !(decide (p.2.peer_id = peer_id) && decide (p.1 = connection_id)))
  let peer_info2 := peer_info1.map
    (fun p =>
      if p.2.supports_autonat && decide (p.2.peer_id = peer_id) then
        (p.1, { p.2 with supports_autonat := false })
      else p)
  { b with peer_info := peer_info2 }

/-- `Behaviour::submit_req_for_peer`: draw a fresh nonce, record it
`Pending`, and if the peer still has a connection flagged as supporting
autonat, enqueue the `NotifyHandler` directive on that connection. -/
def submit_req_for_peer (b : Behaviour) (peer : PeerId) (addrs : List Multiaddr) : Behaviour :=
  let drawn := rngStep b.rng
  let nonce : Nonce := drawn.1 % 2 ^ 64
  let req : DialRequest := { nonce := nonce, addrs := addrs }
  let b1 := { b with
    rng := drawn.2
    pending_nonces := AL.insertKV b.pending_nonces nonce NonceStatus.pending }
  match (b1.peer_info.filter (fun p => p.2.supports_autonat)).find?
      (fun p => decide (p.2.peer_id = peer)) with
  | some p =>
      { b1 with pending_events :=
          (b1.pending_events ++ [ToSwarmEv.notifyHandler peer p.1 req]) }
  | none => b1

/-- The eligible candidate entries of a tick: not yet tested and not in
`already_tested` (the two `filter` calls of
`inject_address_candiate_test`). -/
def eligible_entries (b : Behaviour) : List (Multiaddr × AddressInfo) :=
  (b.address_candidates.filter (fun p => !p.2.is_tested)).filter
    (fun p => !b.already_tested.contains p.1)

/-- The comparison used by `entries.sort_unstable_by_key(|(_, count)| *count)`:
`AddressInfo`'s `Ord` implementation compares scores. -/
def scoreLe (x y : Multiaddr × AddressInfo) : Prop :=
  x.2.score ≤ y.2.score

instance : DecidableRel scoreLe := fun x y => Nat.decLe x.2.score y.2.score

instance : IsTotal (Multiaddr × AddressInfo) scoreLe :=
  ⟨fun x y => Nat.le_total x.2.score y.2.score⟩

instance : IsTrans (Multiaddr × AddressInfo) scoreLe :=
  ⟨fun _ _ _ h1 h2 => Nat.le_trans h1 h2⟩

/-- The probe batch a tick selects: sort the eligible entries by score
ascending (the source's unstable sort is modelled by insertion sort; any
sort by score is an admissible refinement), reverse, keep the addresses,
take `max_candidates`. -/
def select_batch (b : Behaviour) : List Multiaddr :=
  (((List.insertionSort scoreLe (eligible_entries b)).reverse.map
    (fun p => p.1)).take b.config.max_candidates)

/-- `Behaviour::inject_address_candiate_test` (the scheduler tick).  The
early `return`s skip the `next_tick.reset` at the end of the body. -/
def inject_address_candiate_test (b : Behaviour) : Behaviour :=
  if b.peer_info.all (fun p => !p.2.supports_autonat) then b
  else if b.address_candidates.isEmpty then b
  else if b.address_candidates.all (fun p => p.2.is_tested) then b
  else
    let entries := eligible_entries b
    if entries.isEmpty then b
    else
      let addrs := select_batch b
      let drawn := rngStep b.rng
      let b0 := { b with rng := drawn.2 }
      let b1 :=
        match rand_choose drawn.1 (b0.peer_info.filter (fun p => p.2.supports_autonat)) with
        | some p => submit_req_for_peer b0 p.2.peer_id addrs
        | none => b0
      { b1 with next_tick := b1.config.probe_interval }

/-- `Behaviour::validate_addr`: mark a known candidate as tested. -/
def validate_addr (b : Behaviour) (addr : Multiaddr) : Behaviour :=
  { b with address_candidates :=
      (AL.modifyP b.address_candidates addr (fun i => { i with is_tested := true })) }

/-- `NetworkBehaviour::on_swarm_event` for `Behaviour`. -/
def on_swarm_event (b : Behaviour) (event : FromSwarmEv) : Behaviour :=
  match event with
  | .newExternalAddrCandidate addr =>
      { b with address_candidates :=
          (AL.modifyP (AL.entryOrDefault b.address_candidates addr default) addr
            (fun i => { i with score := i.score + 1 })) }
  | .externalAddrConfirmedEv addr =>
      { b with address_candidates :=
          AL.modifyP b.address_candidates addr (fun i => { i with is_tested := true }) }
  | .connectionEstablished peer conn remote_addr =>
      { b with peer_info :=
          (AL.entryOrDefault b.peer_info conn
            { peer_id := peer, supports_autonat := false,
              is_local := addr_is_local remote_addr }) }
  | .connectionClosed peer conn => handle_no_connection b peer conn
  | .dialFailure (some peer) conn => handle_no_connection b peer conn
  | .dialFailure none _ => b
  | .otherEv => b

/-- `NetworkBehaviour::on_connection_handler_event` for `Behaviour`.
Where the source would panic (`.expect("inconsistent state")` on a
missing `peer_info` record) no state escapes in Rust; the model leaves
the state unchanged there. -/
def on_connection_handler_event (b : Behaviour) (peer_id : PeerId)
    (connection_id : ConnectionId) (event : HandlerEvent) : Behaviour :=
  match event with
  | .dialBackNonce nonce =>
      match AL.lookup b.pending_nonces nonce with
      | none => b
      | some _ =>
          { b with pending_nonces :=
              (AL.modifyP b.pending_nonces nonce (fun _ => NonceStatus.received)) }
  | .peerHasServerSupport =>
      { b with peer_info :=
          (AL.modifyP b.peer_info connection_id
            (fun i => { i with supports_autonat := true })) }
  | .testCompleted u =>
      let b1 :=
        if u.server_no_support then
          { b with peer_info :=
              (AL.modifyP b.peer_info connection_id
                (fun i => { i with supports_autonat := false })) }
        else b
      let b2 :=
        match u.result with
        | .ok te =>
            if AL.lookup b1.pending_nonces te.dial_request.nonce = some NonceStatus.received then
              { b1 with pending_events :=
                  (b1.pending_events ++ [ToSwarmEv.externalAddrConfirmed te.reachable_addr]) }
            else b1
        | .error err =>
            match err.internal with
            | .failureDuringDialBack (some addr) =>
                { b1 with address_candidates :=
                    (AL.modifyP b1.address_candidates addr
                      (fun i => { i with is_tested := true })) }
            | .unableToConnectOnSelectedAddress (some addr) =>
                { b1 with address_candidates :=
                    (AL.modifyP b1.address_candidates addr
                      (fun i => { i with is_tested := true })) }
            | .internalServer => handle_no_connection b1 peer_id connection_id
            | .dataRequestTooLarge => handle_no_connection b1 peer_id connection_id
            | .dataRequestTooSmall => handle_no_connection b1 peer_id connection_id
            | .invalidResponse => handle_no_connection b1 peer_id connection_id
            | .serverRejectedDialRequest => handle_no_connection b1 peer_id connection_id
            | .invalidReferencedAddress => handle_no_connection b1 peer_id connection_id
            | .serverChoseNotToDialAnyAddress => handle_no_connection b1 peer_id connection_id
            | _ => b1
      let ev : Event :=
        { tested_addr := u.tested_addr
          bytes_sent := u.bytes_sent
          server := u.server.getD peer_id
          result := u.result.map (fun _ => ()) }
      { b2 with pending_events := b2.pending_events ++ [ToSwarmEv.generateEvent ev] }

/-- The outcome of one `poll` call. -/
inductive PollResult where
  | ready (ev : ToSwarmEv)
  | pending
deriving DecidableEq, Repr

/-- `NetworkBehaviour::poll` for `Behaviour`: drain the directive queue;
otherwise, if the tick timer has elapsed, run the scheduler and retry. -/
def poll (b : Behaviour) : PollResult × Behaviour :=
  match b.pending_events with
  | e :: rest => (PollResult.ready e, { b with pending_events := rest })
  | [] =>
      if b.next_tick = 0 then
        let b1 := inject_address_candiate_test b
        match b1.pending_events with
        | e :: rest => (PollResult.ready e, { b1 with pending_events := rest })
        | [] => (PollResult.pending, b1)
      else (PollResult.pending, b)

/-- One operation on the behaviour: a swarm event, a handler event, the
public `validate_addr`, or a `poll` call. -/
inductive Op where
  | swarm (ev : FromSwarmEv)
  | handler (peer : PeerId) (conn : ConnectionId) (ev : HandlerEvent)
  | validate (addr : Multiaddr)
  | pollStep
deriving DecidableEq, Repr

/-- Apply one operation to the state. -/
def applyOp (b : Behaviour) (op : Op) : Behaviour :=
  match op with
  | .swarm ev => on_swarm_event b ev
  | .handler peer conn ev => on_connection_handler_event b peer conn ev
  | .validate addr => validate_addr b addr
  | .pollStep => (poll b).2

/-- Run a sequence of operations from a state. -/
def run (b : Behaviour) (ops : List Op) : Behaviour :=
  ops.foldl applyOp b

/-! ### Helper lemmas about the association-list operations -/

theorem AL.lookup_modifyP_self {K V : Type} [DecidableEq K] (l : List (K × V)) (key : K)
    (f : V → V) : AL.lookup (AL.modifyP l key f) key = (AL.lookup l key).map f := by
  induction l with
  | nil => rfl
  | cons p rest ih =>
      by_cases h : p.1 = key
      · simp [AL.modifyP, AL.lookup, h]
      · simp [AL.modifyP, AL.lookup, h] at ih ⊢
        exact ih

theorem AL.lookup_modifyP_ne {K V : Type} [DecidableEq K] (l : List (K × V)) (key m : K)
    (f : V → V) (hm : ¬m = key) :
    AL.lookup (AL.modifyP l key f) m = AL.lookup l m := by
  induction l with
  | nil => rfl
  | cons p rest ih =>
      have hkm : ¬key = m := fun hc => hm hc.symm
      by_cases h : p.1 = key
      · simp only [AL.modifyP, AL.lookup, List.map_cons, h, if_pos rfl] at ih ⊢
        simp [hkm, ih]
      · by_cases h2 : p.1 = m
        · simp [AL.modifyP, AL.lookup, h, h2, hkm, hm]
        · simp only [AL.modifyP, AL.lookup, List.map_cons, if_neg h, if_neg h2] at ih ⊢
          exact ih

/-! ### Helper lemmas about the behaviour operations -/

theorem handle_no_connection_fields (b : Behaviour) (p : PeerId) (c : ConnectionId) :
    (handle_no_connection b p c).pending_events = b.pending_events ∧
    (handle_no_connection b p c).pending_nonces = b.pending_nonces ∧
    (handle_no_connection b p c).address_candidates = b.address_candidates ∧
    (handle_no_connection b p c).already_tested = b.already_tested ∧
    (handle_no_connection b p c).config = b.config ∧
    (handle_no_connection b p c).rng = b.rng ∧
    (handle_no_connection b p c).next_tick = b.next_tick := by
  simp [handle_no_connection]

theorem handle_no_connection_removes_conn (b : Behaviour) (peer : PeerId)
    (conn : ConnectionId) (hkey : ∀ ci, (conn, ci) ∈ b.peer_info → ci.peer_id = peer) :
    ∀ ci, ¬((conn, ci) ∈ (handle_no_connection b peer conn).peer_info) := by
  intro ci hmem
  simp only [handle_no_connection] at hmem
  rw [List.mem_map] at hmem
  obtain ⟨q, hq, hgq⟩ := hmem
  have hq1 : q.1 = conn := by
    by_cases hcond : q.2.supports_autonat && decide (q.2.peer_id = peer)
    · simp [hcond] at hgq
      exact hgq.1
    · simp [hcond] at hgq
      exact congrArg Prod.fst hgq
  obtain ⟨hqmem, hpred⟩ := List.mem_filter.mp hq
  have hqb : (conn, q.2) ∈ b.peer_info := by
    have : q = (conn, q.2) := by
      rw [Prod.ext_iff]
      exact ⟨hq1, rfl⟩
    rw [this] at hqmem
    exact hqmem
  have hpeer : q.2.peer_id = peer := hkey q.2 hqb
  simp [hpeer, hq1] at hpred

theorem handle_no_connection_clears_support (b : Behaviour) (peer : PeerId)
    (conn : ConnectionId) :
    ∀ q, q ∈ (handle_no_connection b peer conn).peer_info → q.2.peer_id = peer →
      q.2.supports_autonat = false := by
  intro q hq hpeer
  simp only [handle_no_connection] at hq
  rw [List.mem_map] at hq
  obtain ⟨q0, _, hgq⟩ := hq
  by_cases hcond : q0.2.supports_autonat && decide (q0.2.peer_id = peer)
  · simp [hcond] at hgq
    subst hgq
    rfl
  · simp [hcond] at hgq
    subst hgq
    have hf : (q0.2.supports_autonat && decide (q0.2.peer_id = peer)) = false := by
      simpa using hcond
    rcases Bool.and_eq_false_iff.mp hf with h | h
    · exact h
    · have : ¬q0.2.peer_id = peer := by simpa using h
      exact absurd hpeer this

theorem submit_req_for_peer_fields (b : Behaviour) (peer : PeerId) (addrs : List Multiaddr) :
    (submit_req_for_peer b peer addrs).config = b.config ∧
    (submit_req_for_peer b peer addrs).peer_info = b.peer_info ∧
    (submit_req_for_peer b peer addrs).next_tick = b.next_tick ∧
    (submit_req_for_peer b peer addrs).address_candidates = b.address_candidates ∧
    (submit_req_for_peer b peer addrs).already_tested = b.already_tested := by
  simp only [submit_req_for_peer]
  split <;> simp

theorem submit_req_for_peer_cases (b : Behaviour) (peer : PeerId) (addrs : List Multiaddr) :
    ((submit_req_for_peer b peer addrs).pending_events = b.pending_events) ∨
    (∃ q, ((b.peer_info.filter (fun p => p.2.supports_autonat)).find?
        (fun p => decide (p.2.peer_id = peer)) = some q) ∧
      (submit_req_for_peer b peer addrs).pending_events =
        b.pending_events ++ [ToSwarmEv.notifyHandler peer q.1
          { nonce := (rngStep b.rng).1 % 2 ^ 64, addrs := addrs }]) := by
  simp only [submit_req_for_peer]
  cases hf : (b.peer_info.filter (fun p => p.2.supports_autonat)).find?
      (fun p => decide (p.2.peer_id = peer)) with
  | none => exact Or.inl (by simp [hf])
  | some q => exact Or.inr ⟨q, rfl, by simp [hf]⟩

theorem pending_append_ne (l : List ToSwarmEv) (x : ToSwarmEv) : ¬(l = l ++ [x]) := by
  intro h
  have := congrArg List.length h
  simp at this

/-! ### The claims -/

/-- C9: for a `ListenerPresence` filter built from a collection `S`,
`contains(addr)` is true iff some address in `S` has the same signature
as `addr` (the signature being the protocol-tag list with the ignored
tags removed, i.e. `clean_multiaddr`); in particular every address of
`S` is contained. -/
theorem listener_presence_contains_iff_signature (S : List Multiaddr) (a : Multiaddr) :
    ((ListenerPresence.fromAddrs S).containsAddr a = true ↔
      ∃ s, s ∈ S ∧ clean_multiaddr s = clean_multiaddr a) ∧
    (a ∈ S → (ListenerPresence.fromAddrs S).containsAddr a = true) := by
  constructor
  · simp [ListenerPresence.containsAddr, ListenerPresence.fromAddrs, List.mem_map]
  · intro ha
    simp [ListenerPresence.containsAddr, ListenerPresence.fromAddrs, List.mem_map]
    exact ⟨a, ha, rfl⟩

/-- Witness for the hypothesis of the second conjunct of the C9 theorem,
at a concrete one-element collection. -/
theorem listener_presence_contains_iff_signature_witness :
    ([Proto.ip4 true, Proto.other "tcp"] : Multiaddr) ∈
        ([[Proto.ip4 true, Proto.other "tcp"]] : List Multiaddr) ∧
    (ListenerPresence.fromAddrs [[Proto.ip4 true, Proto.other "tcp"]]).containsAddr
        [Proto.ip4 true, Proto.other "tcp"] = true :=
  ⟨by decide,
    (listener_presence_contains_iff_signature [[Proto.ip4 true, Proto.other "tcp"]]
      [Proto.ip4 true, Proto.other "tcp"]).2 (by decide)⟩

/-- C1: processing `TestCompleted` with `result = Ok{nonce, reachable_addr}`
enqueues an `ExternalAddrConfirmed(reachable_addr)` directive iff the
nonce ledger holds the nonce with status `Received` at that moment; when
the nonce is absent or still `Pending`, only the per-probe
`GenerateEvent` is enqueued. -/
theorem test_completed_confirms_iff_received (b : Behaviour) (p : PeerId) (c : ConnectionId)
    (ta : Option Multiaddr) (bs : Nat) (sv : Option PeerId) (sns : Bool) (te : TestEnd) :
    (on_connection_handler_event b p c (HandlerEvent.testCompleted
      { tested_addr := ta, bytes_sent := bs, server := sv, result := Except.ok te,
        server_no_support := sns })).pending_events =
      b.pending_events ++
        (if AL.lookup b.pending_nonces te.dial_request.nonce = some NonceStatus.received then
          [ToSwarmEv.externalAddrConfirmed te.reachable_addr] else []) ++
        [ToSwarmEv.generateEvent
          { tested_addr := ta, bytes_sent := bs, server := sv.getD p,
            result := Except.ok () }] := by
  cases sns <;>
    by_cases h : AL.lookup b.pending_nonces te.dial_request.nonce = some NonceStatus.received <;>
      simp [on_connection_handler_event, h, Except.map, List.append_assoc]

/-- C5: a dial-back nonce that is not in the ledger leaves the whole
state unchanged; a known nonce has its status set to `Received` (other
ledger entries and all other fields untouched); in neither case is an
outward directive enqueued. -/
theorem dial_back_nonce_handling (b : Behaviour) (p : PeerId) (c : ConnectionId) (n : Nonce) :
    ((on_connection_handler_event b p c (HandlerEvent.dialBackNonce n)).pending_events
        = b.pending_events) ∧
    (AL.lookup b.pending_nonces n = none →
      on_connection_handler_event b p c (HandlerEvent.dialBackNonce n) = b) ∧
    (∀ s, AL.lookup b.pending_nonces n = some s →
      AL.lookup (on_connection_handler_event b p c
          (HandlerEvent.dialBackNonce n)).pending_nonces n = some NonceStatus.received ∧
      (∀ m, ¬m = n →
        AL.lookup (on_connection_handler_event b p c
            (HandlerEvent.dialBackNonce n)).pending_nonces m = AL.lookup b.pending_nonces m) ∧
      (on_connection_handler_event b p c
          (HandlerEvent.dialBackNonce n)).address_candidates = b.address_candidates ∧
      (on_connection_handler_event b p c
          (HandlerEvent.dialBackNonce n)).peer_info = b.peer_info ∧
      (on_connection_handler_event b p c
          (HandlerEvent.dialBackNonce n)).already_tested = b.already_tested ∧
      (on_connection_handler_event b p c (HandlerEvent.dialBackNonce n)).rng = b.rng ∧
      (on_connection_handler_event b p c
          (HandlerEvent.dialBackNonce n)).next_tick = b.next_tick ∧
      (on_connection_handler_event b p c
          (HandlerEvent.dialBackNonce n)).config = b.config) := by
  cases h : AL.lookup b.pending_nonces n with
  | none =>
      refine ⟨?_, fun _ => ?_, fun s hs => Option.noConfusion hs⟩
      · simp [on_connection_handler_event, h]
      · simp [on_connection_handler_event, h]
  | some s0 =>
      refine ⟨?_, fun hnone => Option.noConfusion hnone, fun s hs => ?_⟩
      · simp [on_connection_handler_event, h]
      · refine ⟨?_, fun m hm => ?_, ?_, ?_, ?_, ?_, ?_, ?_⟩
        · simp [on_connection_handler_event, h, AL.lookup_modifyP_self]
        · simp [on_connection_handler_event, h, AL.lookup_modifyP_ne _ _ _ _ hm]
        all_goals simp [on_connection_handler_event, h]

/-- Witness for the C5 theorem's hypotheses: a state holding nonce `4`
as `Pending`; the absent-nonce branch is exercised at nonce `9`. -/
theorem dial_back_nonce_handling_witness :
    (AL.lookup (Behaviour.new 0 Config.default).pending_nonces 9 = none →
      on_connection_handler_event (Behaviour.new 0 Config.default) 1 2
        (HandlerEvent.dialBackNonce 9) = Behaviour.new 0 Config.default) ∧
    (AL.lookup { Behaviour.new 0 Config.default with
        pending_nonces := [(4, NonceStatus.pending)] }.pending_nonces 4
          = some NonceStatus.pending ∧
      AL.lookup (on_connection_handler_event
          { Behaviour.new 0 Config.default with pending_nonces := [(4, NonceStatus.pending)] }
          1 2 (HandlerEvent.dialBackNonce 4)).pending_nonces 4 = some NonceStatus.received) :=
  ⟨(dial_back_nonce_handling (Behaviour.new 0 Config.default) 1 2 9).2.1,
    ⟨by decide,
      ((dial_back_nonce_handling
        { Behaviour.new 0 Config.default with pending_nonces := [(4, NonceStatus.pending)] }
        1 2 4).2.2 NonceStatus.pending (by decide)).1⟩⟩

/-- C8: every `TestCompleted` event enqueues exactly one `GenerateEvent`
directive, last (after an optional confirmation directive), whose result
is `Ok(())` on success and the wrapped error otherwise, and whose server
field is the update's server when present, else the delivering
connection's peer. -/
theorem test_completed_single_generate_event (b : Behaviour) (p : PeerId) (c : ConnectionId)
    (u : InternalStatusUpdate) :
    ∃ pre,
      (on_connection_handler_event b p c (HandlerEvent.testCompleted u)).pending_events =
        b.pending_events ++ pre ++ [ToSwarmEv.generateEvent
          { tested_addr := u.tested_addr, bytes_sent := u.bytes_sent,
            server := u.server.getD p, result := Except.map (fun _ => ()) u.result }] ∧
      (pre = [] ∨ ∃ addr, pre = [ToSwarmEv.externalAddrConfirmed addr]) := by
  rcases u with ⟨ta, bs, sv, res, sns⟩
  cases res with
  | ok te =>
      by_cases h : AL.lookup (if sns then
          { b with peer_info :=
              (AL.modifyP b.peer_info c (fun i => { i with supports_autonat := false })) }
        else b).pending_nonces te.dial_request.nonce = some NonceStatus.received
      · refine ⟨[ToSwarmEv.externalAddrConfirmed te.reachable_addr], ?_, Or.inr ⟨_, rfl⟩⟩
        cases sns <;> simp_all [on_connection_handler_event, Except.map, List.append_assoc]
      · refine ⟨[], ?_, Or.inl rfl⟩
        cases sns <;> simp_all [on_connection_handler_event, Except.map, List.append_assoc]
  | error err =>
      refine ⟨[], ?_, Or.inl rfl⟩
      obtain ⟨ie⟩ := err
      cases ie <;> [skip; skip; skip; skip; skip; skip; skip; skip; skip; skip] <;>
        first
        | (rename_i oa; cases oa <;> cases sns <;>
            simp [on_connection_handler_event, handle_no_connection, Except.map])
        | (cases sns <;>
            simp [on_connection_handler_event, handle_no_connection, Except.map])

/-- C4: after a `ConnectionClosed(peer, conn)` event, or a `DialFailure`
event with known peer `peer` and connection `conn`, no `peer_info`
entry keyed by `conn` remains, and every remaining record of `peer`
has `supports_autonat = false`.  The hypothesis states the
key-consistency the swarm guarantees: an entry keyed by `conn` belongs
to `peer`. -/
theorem connection_teardown (b : Behaviour) (peer : PeerId) (conn : ConnectionId)
    (hkey : ∀ ci, (conn, ci) ∈ b.peer_info → ci.peer_id = peer) :
    ∀ ev, (ev = FromSwarmEv.connectionClosed peer conn ∨
        ev = FromSwarmEv.dialFailure (some peer) conn) →
      (∀ ci, ¬((conn, ci) ∈ (on_swarm_event b ev).peer_info)) ∧
      (∀ q, q ∈ (on_swarm_event b ev).peer_info → q.2.peer_id = peer →
        q.2.supports_autonat = false) := by
  rintro ev (rfl | rfl) <;>
    exact ⟨handle_no_connection_removes_conn b peer conn hkey,
      handle_no_connection_clears_support b peer conn⟩

/-- Witness for the C4 theorem: peer `7` holds connections `3` (closing,
supporting) and `5` (staying, supporting); after `ConnectionClosed(7, 3)`
connection `3` is gone and connection `5` no longer supports autonat. -/
theorem connection_teardown_witness :
    (∀ ci, ¬((3, ci) ∈ (on_swarm_event
      { Behaviour.new 0 Config.default with peer_info :=
          [(3, { peer_id := 7, supports_autonat := true, is_local := false }),
           (5, { peer_id := 7, supports_autonat := true, is_local := false })] }
      (FromSwarmEv.connectionClosed 7 3)).peer_info)) ∧
    (∀ q, q ∈ (on_swarm_event
      { Behaviour.new 0 Config.default with peer_info :=
          [(3, { peer_id := 7, supports_autonat := true, is_local := false }),
           (5, { peer_id := 7, supports_autonat := true, is_local := false })] }
      (FromSwarmEv.connectionClosed 7 3)).peer_info → q.2.peer_id = 7 →
        q.2.supports_autonat = false) :=
  connection_teardown
    { Behaviour.new 0 Config.default with peer_info :=
        [(3, { peer_id := 7, supports_autonat := true, is_local := false }),
         (5, { peer_id := 7, supports_autonat := true, is_local := false })] }
    7 3
    (by
      intro ci h
      simp at h
      subst h
      rfl)
    (FromSwarmEv.connectionClosed 7 3) (Or.inl rfl)

/-- C3: a tick produces a `DialRequest` directive only if some connection
record supports autonat (with none, the tick changes nothing), the server
peer comes from a record chosen via the injected RNG among the
supporting records, and the `NotifyHandler` directive targets a
connection of that peer that is flagged as supporting. -/
theorem tick_requires_supporting_server (b : Behaviour) :
    ((∀ q, q ∈ b.peer_info → q.2.supports_autonat = false) →
      inject_address_candiate_test b = b) ∧
    (∀ peer conn req,
      (inject_address_candiate_test b).pending_events =
          b.pending_events ++ [ToSwarmEv.notifyHandler peer conn req] →
      (∃ ci, (conn, ci) ∈ b.peer_info ∧ ci.supports_autonat = true ∧ ci.peer_id = peer) ∧
      (∃ cq, rand_choose (rngStep b.rng).1
          (b.peer_info.filter (fun q => q.2.supports_autonat)) = some cq ∧
        cq.2.peer_id = peer)) := by
  constructor
  · intro hall
    have hguard : b.peer_info.all (fun p => !p.2.supports_autonat) = true := by
      rw [List.all_eq_true]
      intro q hq
      simp [hall q hq]
    simp [inject_address_candiate_test, hguard]
  · intro peer conn req heq
    by_cases h1 : b.peer_info.all (fun p => !p.2.supports_autonat)
    · rw [show inject_address_candiate_test b = b by
        simp [inject_address_candiate_test, h1]] at heq
      exact absurd heq (pending_append_ne _ _)
    by_cases h2 : b.address_candidates.isEmpty
    · rw [show inject_address_candiate_test b = b by
        simp [inject_address_candiate_test, h1, h2]] at heq
      exact absurd heq (pending_append_ne _ _)
    by_cases h3 : b.address_candidates.all (fun p => p.2.is_tested)
    · rw [show inject_address_candiate_test b = b by
        simp [inject_address_candiate_test, h1, h2, h3]] at heq
      exact absurd heq (pending_append_ne _ _)
    by_cases h4 : (eligible_entries b).isEmpty
    · rw [show inject_address_candiate_test b = b by
        simp [inject_address_candiate_test, h1, h2, h3, h4]] at heq
      exact absurd heq (pending_append_ne _ _)
    cases hc : rand_choose (rngStep b.rng).1
        (b.peer_info.filter (fun q => q.2.supports_autonat)) with
    | none =>
        rw [show (inject_address_candiate_test b).pending_events = b.pending_events by
          simp [inject_address_candiate_test, h1, h2, h3, h4, hc]] at heq
        exact absurd heq (pending_append_ne _ _)
    | some cq =>
        have hmain : (inject_address_candiate_test b).pending_events =
            (submit_req_for_peer { b with rng := (rngStep b.rng).2 } cq.2.peer_id
              (select_batch b)).pending_events := by
          simp [inject_address_candiate_test, h1, h2, h3, h4, hc]
        rcases submit_req_for_peer_cases { b with rng := (rngStep b.rng).2 }
            cq.2.peer_id (select_batch b) with hsub | ⟨q, hfind, hsub⟩
        · rw [hmain, hsub] at heq
          exact absurd heq (pending_append_ne _ _)
        · rw [hmain, hsub] at heq
          have hsing := List.append_cancel_left heq
          have hev : ToSwarmEv.notifyHandler cq.2.peer_id q.1
              { nonce := (rngStep { b with rng := (rngStep b.rng).2 }.rng).1 % 2 ^ 64,
                addrs := select_batch b } = ToSwarmEv.notifyHandler peer conn req := by
            simpa using hsing
          rw [ToSwarmEv.notifyHandler.injEq] at hev
          obtain ⟨hpeer, hconn, hreq⟩ := hev
          have hqmem := List.mem_of_find?_eq_some hfind
          rw [List.mem_filter] at hqmem
          have hqsupp : q.2.supports_autonat = true := by simpa using hqmem.2
          have hqpeer : q.2.peer_id = cq.2.peer_id := by
            have := List.find?_some hfind
            simpa using this
          refine ⟨⟨q.2, ?_, hqsupp, by rw [hqpeer, hpeer]⟩, ⟨cq, rfl, hpeer⟩⟩
          have : q = (conn, q.2) := by
            rw [Prod.ext_iff]
            exact ⟨hconn, rfl⟩
          rw [← this]
          exact hqmem.1

/-- Witness for the C3 theorem: a state with one supporting connection
`3` of peer `55` and one untested candidate; the tick emits the
`DialRequest` directive on that connection. -/
theorem tick_requires_supporting_server_witness :
    (∃ ci, (3, ci) ∈ ({ Behaviour.new 7 { max_candidates := 2, probe_interval := 1 } with
        address_candidates := [([Proto.other "tcp"], { score := 1, is_tested := false })],
        peer_info := [(3, { peer_id := 55, supports_autonat := true, is_local := false })]
      } : Behaviour).peer_info ∧ ci.supports_autonat = true ∧ ci.peer_id = 55) ∧
    (∃ cq, rand_choose (rngStep ({ Behaviour.new 7
          { max_candidates := 2, probe_interval := 1 } with
        address_candidates := [([Proto.other "tcp"], { score := 1, is_tested := false })],
        peer_info := [(3, { peer_id := 55, supports_autonat := true, is_local := false })]
      } : Behaviour).rng).1
        (({ Behaviour.new 7 { max_candidates := 2, probe_interval := 1 } with
        address_candidates := [([Proto.other "tcp"], { score := 1, is_tested := false })],
        peer_info := [(3, { peer_id := 55, supports_autonat := true, is_local := false })]
      } : Behaviour).peer_info.filter (fun q => q.2.supports_autonat)) = some cq ∧
      cq.2.peer_id = 55) :=
  (tick_requires_supporting_server
    { Behaviour.new 7 { max_candidates := 2, probe_interval := 1 } with
      address_candidates := [([Proto.other "tcp"], { score := 1, is_tested := false })],
      peer_info := [(3, { peer_id := 55, supports_autonat := true, is_local := false })]
    }).2 55 3 { nonce := 8, addrs := [[Proto.other "tcp"]] } (by decide)

/-- C7 counterexample: a state whose directive queue is empty and whose
tick timer has elapsed (`next_tick = 0`), with a candidate address but
no connection supporting autonat.  `poll` invokes the scheduler (the
tick fires and aborts early), yet the timer is NOT reset to
`probe_interval = 5`: the whole state, timer included, is unchanged, so
the claim that every tick resets the timer is false. -/
theorem tick_timer_early_abort_counterexample :
    (poll { Behaviour.new 0 { max_candidates := 10, probe_interval := 5 } with address_candidates := [([Proto.other "tcp"], { score := 1, is_tested := false })], next_tick := 0 }).1 = PollResult.pending ∧
    ¬((poll { Behaviour.new 0 { max_candidates := 10, probe_interval := 5 } with address_candidates := [([Proto.other "tcp"], { score := 1, is_tested := false })], next_tick := 0 }).2.next_tick = ({ max_candidates := 10, probe_interval := 5 } : Config).probe_interval) ∧
    (poll { Behaviour.new 0 { max_candidates := 10, probe_interval := 5 } with address_candidates := [([Proto.other "tcp"], { score := 1, is_tested := false })], next_tick := 0 }).2.next_tick = 0 := by
  refine ⟨?_, ?_, ?_⟩ <;> decide

/-- C7, amended: the tick timer is reset to `probe_interval` exactly on
the ticks that dispatch work — when some connection supports autonat and
the eligible candidate list is nonempty.  A tick that aborts early
(no supporting connection, empty or fully tested address book, empty
eligible list) leaves the state, timer included, unchanged. -/
theorem tick_timer_reset_iff_probe_dispatched (b : Behaviour) :
    (b.peer_info.any (fun q => q.2.supports_autonat) = true →
      ¬(eligible_entries b = []) →
      (inject_address_candiate_test b).next_tick = b.config.probe_interval) ∧
    (¬(b.peer_info.any (fun q => q.2.supports_autonat) = true ∧
        ¬(eligible_entries b = [])) →
      inject_address_candiate_test b = b) := by
  constructor
  · intro hany helig
    obtain ⟨q, hq⟩ : ∃ q, q ∈ eligible_entries b := by
      cases he : eligible_entries b with
      | nil => exact absurd he helig
      | cons q t => exact ⟨q, by simp [he]⟩
    have hq2 := hq
    simp only [eligible_entries, List.mem_filter] at hq2
    obtain ⟨⟨hmem, huntested⟩, _⟩ := hq2
    rcases List.any_eq_true.mp hany with ⟨s, hs, hsval⟩
    have h1 : b.peer_info.all (fun p => !p.2.supports_autonat) = false := by
      rw [Bool.eq_false_iff]
      intro hforall
      rw [List.all_eq_true] at hforall
      have := hforall s hs
      simp [hsval] at this
    have h2 : b.address_candidates.isEmpty = false := by
      rw [Bool.eq_false_iff]
      intro hemp
      rw [List.isEmpty_iff] at hemp
      rw [hemp] at hmem
      cases hmem
    have h3 : b.address_candidates.all (fun p => p.2.is_tested) = false := by
      rw [Bool.eq_false_iff]
      intro hforall
      rw [List.all_eq_true] at hforall
      have := hforall q hmem
      simp [this] at huntested
    have h4 : (eligible_entries b).isEmpty = false := by
      rw [Bool.eq_false_iff]
      intro hemp
      rw [List.isEmpty_iff] at hemp
      exact helig hemp
    cases hc : rand_choose (rngStep b.rng).1
        (b.peer_info.filter (fun q => q.2.supports_autonat)) with
    | none => simp [inject_address_candiate_test, h1, h2, h3, h4, hc]
    | some cq =>
        simp only [inject_address_candiate_test, h1, h2, h3, h4, hc,
          Bool.false_eq_true, if_false, List.isEmpty_eq_true]
        simp [(submit_req_for_peer_fields { b with rng := (rngStep b.rng).2 }
          cq.2.peer_id (select_batch b)).1]
  · intro hn
    by_cases h1 : b.peer_info.all (fun p => !p.2.supports_autonat)
    · simp [inject_address_candiate_test, h1]
    · have hany : b.peer_info.any (fun q => q.2.supports_autonat) = true := by
        rw [List.any_eq_true]
        by_contra hno
        push_neg at hno
        apply h1
        rw [List.all_eq_true]
        intro q hq
        have := hno q hq
        simp at this
        simp [this]
      have helig : eligible_entries b = [] := by
        by_contra hne
        exact hn ⟨hany, hne⟩
      by_cases h2 : b.address_candidates.isEmpty
      · simp [inject_address_candiate_test, h1, h2]
      · by_cases h3 : b.address_candidates.all (fun p => p.2.is_tested)
        · simp [inject_address_candiate_test, h1, h2, h3]
        · simp [inject_address_candiate_test, h1, h2, h3, helig]

/-- Witness for the amended C7 theorem: on a state with a supporting
connection and an untested candidate, the tick resets the timer; on a
state with no supporting connection, the tick changes nothing. -/
theorem tick_timer_reset_iff_probe_dispatched_witness :
    ((inject_address_candiate_test
      { Behaviour.new 7 { max_candidates := 2, probe_interval := 1 } with
        address_candidates := [([Proto.other "tcp"], { score := 1, is_tested := false })],
        peer_info := [(3, { peer_id := 55, supports_autonat := true, is_local := false })]
      }).next_tick =
      ({ Behaviour.new 7 { max_candidates := 2, probe_interval := 1 } with
        address_candidates := [([Proto.other "tcp"], { score := 1, is_tested := false })],
        peer_info := [(3, { peer_id := 55, supports_autonat := true, is_local := false })]
      } : Behaviour).config.probe_interval) ∧
    (inject_address_candiate_test
      { Behaviour.new 0 { max_candidates := 10, probe_interval := 5 } with
        address_candidates := [([Proto.other "tcp"], { score := 1, is_tested := false })],
        next_tick := 0 } =
      { Behaviour.new 0 { max_candidates := 10, probe_interval := 5 } with
        address_candidates := [([Proto.other "tcp"], { score := 1, is_tested := false })],
        next_tick := 0 }) :=
  ⟨(tick_timer_reset_iff_probe_dispatched
      { Behaviour.new 7 { max_candidates := 2, probe_interval := 1 } with
        address_candidates := [([Proto.other "tcp"], { score := 1, is_tested := false })],
        peer_info := [(3, { peer_id := 55, supports_autonat := true, is_local := false })]
      }).1 (by decide) (by decide),
    (tick_timer_reset_iff_probe_dispatched
      { Behaviour.new 0 { max_candidates := 10, probe_interval := 5 } with
        address_candidates := [([Proto.other "tcp"], { score := 1, is_tested := false })],
        next_tick := 0 }).2 (by decide)⟩

theorem select_batch_eq_take_map (b : Behaviour) :
    select_batch b = ((List.insertionSort scoreLe
        (eligible_entries b)).reverse.take b.config.max_candidates).map (fun p => p.1) := by
  simp [select_batch, List.map_take]

theorem sorted_reverse_pairwise (l : List (Multiaddr × AddressInfo)) :
    ((List.insertionSort scoreLe l).reverse).Pairwise
      (fun x y => y.2.score ≤ x.2.score) := by
  rw [List.pairwise_reverse]
  exact List.sorted_insertionSort scoreLe l

theorem eligible_keys_nodup (b : Behaviour)
    (hnd : (b.address_candidates.map (fun p => p.1)).Nodup) :
    ((eligible_entries b).map (fun p => p.1)).Nodup := by
  have hsub : (eligible_entries b).Sublist b.address_candidates :=
    (List.filter_sublist _).trans (List.filter_sublist _)
  exact hnd.sublist (hsub.map _)

/-- C2: the probe batch is the reversed score-ascending sort of the
eligible entries truncated to `max_candidates`; hence among two eligible
addresses, if the lower-scored one is selected then so is the
higher-scored one. -/
theorem batch_prefers_higher_score (b : Behaviour) (a c : Multiaddr) (ia ic : AddressInfo)
    (hnd : (b.address_candidates.map (fun p => p.1)).Nodup)
    (ha : (a, ia) ∈ eligible_entries b) (hc : (c, ic) ∈ eligible_entries b)
    (hs : ic.score < ia.score) (hsel : c ∈ select_batch b) : a ∈ select_batch b := by
  have hrpw := sorted_reverse_pairwise (eligible_entries b)
  have hmem_r : ∀ q, q ∈ (List.insertionSort scoreLe (eligible_entries b)).reverse ↔
      q ∈ eligible_entries b := by
    intro q
    rw [List.mem_reverse, List.mem_insertionSort]
  have hnd_elig := eligible_keys_nodup b hnd
  rw [select_batch_eq_take_map] at hsel ⊢
  obtain ⟨q, hqtake, hq1⟩ := List.mem_map.mp hsel
  have hq_elig : q ∈ eligible_entries b := (hmem_r q).mp (List.mem_of_mem_take hqtake)
  have hq_eq : q = (c, ic) := List.inj_on_of_nodup_map hnd_elig hq_elig hc (by rw [hq1])
  have ha_r : (a, ia) ∈ (List.insertionSort scoreLe (eligible_entries b)).reverse :=
    (hmem_r _).mpr ha
  rw [← List.take_append_drop b.config.max_candidates
    (List.insertionSort scoreLe (eligible_entries b)).reverse] at ha_r
  rcases List.mem_append.mp ha_r with hin | hin
  · exact List.mem_map.mpr ⟨(a, ia), hin, rfl⟩
  · exfalso
    have hpw2 : ((List.insertionSort scoreLe (eligible_entries b)).reverse.take
          b.config.max_candidates ++
        (List.insertionSort scoreLe (eligible_entries b)).reverse.drop
          b.config.max_candidates).Pairwise (fun x y => y.2.score ≤ x.2.score) := by
      rw [List.take_append_drop]
      exact hrpw
    have hge := (List.pairwise_append.mp hpw2).2.2 q hqtake (a, ia) hin
    rw [hq_eq] at hge
    simp only [Prod.snd] at hge
    omega

/-- Witness for the C2 theorem: two untested candidates with scores 2
and 1 and `max_candidates = 2`; the lower-scored address is selected, so
the theorem puts the higher-scored one in the batch as well. -/
theorem batch_prefers_higher_score_witness :
    ([Proto.other "tcp"] : Multiaddr) ∈ select_batch
      { Behaviour.new 0 { max_candidates := 2, probe_interval := 5 } with address_candidates := [([Proto.other "tcp"], { score := 2, is_tested := false }), ([Proto.other "udp"], { score := 1, is_tested := false })] } :=
  batch_prefers_higher_score
    { Behaviour.new 0 { max_candidates := 2, probe_interval := 5 } with address_candidates := [([Proto.other "tcp"], { score := 2, is_tested := false }), ([Proto.other "udp"], { score := 1, is_tested := false })] }
    [Proto.other "tcp"] [Proto.other "udp"]
    { score := 2, is_tested := false } { score := 1, is_tested := false }
    (by decide) (by decide) (by decide) (by decide) (by decide)

theorem inject_state_fields (b : Behaviour) :
    (inject_address_candiate_test b).address_candidates = b.address_candidates ∧
    (inject_address_candiate_test b).already_tested = b.already_tested ∧
    (inject_address_candiate_test b).peer_info = b.peer_info ∧
    (inject_address_candiate_test b).config = b.config := by
  by_cases h1 : b.peer_info.all (fun p => !p.2.supports_autonat)
  · simp [inject_address_candiate_test, h1]
  by_cases h2 : b.address_candidates.isEmpty
  · simp [inject_address_candiate_test, h1, h2]
  by_cases h3 : b.address_candidates.all (fun p => p.2.is_tested)
  · simp [inject_address_candiate_test, h1, h2, h3]
  by_cases h4 : (eligible_entries b).isEmpty
  · simp [inject_address_candiate_test, h1, h2, h3, h4]
  cases hc : rand_choose (rngStep b.rng).1
      (b.peer_info.filter (fun p => p.2.supports_autonat)) with
  | none => simp [inject_address_candiate_test, h1, h2, h3, h4, hc]
  | some cq =>
      have hf := submit_req_for_peer_fields { b with rng := (rngStep b.rng).2 }
        cq.2.peer_id (select_batch b)
      simp [inject_address_candiate_test, h1, h2, h3, h4, hc,
        hf.1, hf.2.1, hf.2.2.2.1, hf.2.2.2.2]

theorem poll_state_fields (b : Behaviour) :
    ((poll b).2).address_candidates = b.address_candidates ∧
    ((poll b).2).already_tested = b.already_tested ∧
    ((poll b).2).peer_info = b.peer_info ∧
    ((poll b).2).config = b.config := by
  unfold poll
  cases b.pending_events with
  | cons e rest => simp
  | nil =>
      by_cases ht : b.next_tick = 0
      · have hi := inject_state_fields b
        cases hpe : (inject_address_candiate_test b).pending_events with
        | nil => simp [ht, hpe, hi.1, hi.2.1, hi.2.2.1, hi.2.2.2]
        | cons e rest => simp [ht, hpe, hi.1, hi.2.1, hi.2.2.1, hi.2.2.2]
      · simp [ht]

theorem handler_already_tested (b : Behaviour) (p : PeerId) (c : ConnectionId)
    (e : HandlerEvent) :
    (on_connection_handler_event b p c e).already_tested = b.already_tested := by
  cases e with
  | dialBackNonce n =>
      cases h : AL.lookup b.pending_nonces n <;> simp [on_connection_handler_event, h]
  | peerHasServerSupport => simp [on_connection_handler_event]
  | testCompleted u =>
      rcases u with ⟨ta, bs, sv, res, sns⟩
      cases res with
      | ok te =>
          cases sns <;>
            by_cases h : AL.lookup b.pending_nonces te.dial_request.nonce =
              some NonceStatus.received <;>
            simp_all [on_connection_handler_event]
      | error err =>
          obtain ⟨ie⟩ := err
          cases ie <;>
            first
            | (rename_i oa; cases oa <;> cases sns <;>
                simp [on_connection_handler_event, handle_no_connection])
            | (cases sns <;>
                simp [on_connection_handler_event, handle_no_connection])

theorem handler_ac_cases (b : Behaviour) (p : PeerId) (c : ConnectionId) (e : HandlerEvent) :
    (on_connection_handler_event b p c e).address_candidates = b.address_candidates ∨
    (∃ addr, (on_connection_handler_event b p c e).address_candidates =
      AL.modifyP b.address_candidates addr (fun i => { i with is_tested := true })) := by
  cases e with
  | dialBackNonce n =>
      cases h : AL.lookup b.pending_nonces n <;>
        exact Or.inl (by simp [on_connection_handler_event, h])
  | peerHasServerSupport => exact Or.inl (by simp [on_connection_handler_event])
  | testCompleted u =>
      rcases u with ⟨ta, bs, sv, res, sns⟩
      cases res with
      | ok te =>
          left
          cases sns <;>
            by_cases h : AL.lookup b.pending_nonces te.dial_request.nonce =
              some NonceStatus.received <;>
            simp_all [on_connection_handler_event]
      | error err =>
          obtain ⟨ie⟩ := err
          cases ie with
          | failureDuringDialBack oa =>
              cases oa with
              | none => exact Or.inl (by cases sns <;> simp [on_connection_handler_event])
              | some addr =>
                  exact Or.inr ⟨addr, by cases sns <;> simp [on_connection_handler_event]⟩
          | unableToConnectOnSelectedAddress oa =>
              cases oa with
              | none => exact Or.inl (by cases sns <;> simp [on_connection_handler_event])
              | some addr =>
                  exact Or.inr ⟨addr, by cases sns <;> simp [on_connection_handler_event]⟩
          | internalServer =>
              exact Or.inl (by cases sns <;>
                simp [on_connection_handler_event, handle_no_connection])
          | dataRequestTooLarge =>
              exact Or.inl (by cases sns <;>
                simp [on_connection_handler_event, handle_no_connection])
          | dataRequestTooSmall =>
              exact Or.inl (by cases sns <;>
                simp [on_connection_handler_event, handle_no_connection])
          | invalidResponse =>
              exact Or.inl (by cases sns <;>
                simp [on_connection_handler_event, handle_no_connection])
          | serverRejectedDialRequest =>
              exact Or.inl (by cases sns <;>
                simp [on_connection_handler_event, handle_no_connection])
          | invalidReferencedAddress =>
              exact Or.inl (by cases sns <;>
                simp [on_connection_handler_event, handle_no_connection])
          | serverChoseNotToDialAnyAddress =>
              exact Or.inl (by cases sns <;>
                simp [on_connection_handler_event, handle_no_connection])
          | otherKind t =>
              exact Or.inl (by cases sns <;> simp [on_connection_handler_event])

theorem applyOp_already_tested (b : Behaviour) (op : Op) :
    (applyOp b op).already_tested = b.already_tested := by
  cases op with
  | swarm ev =>
      cases ev with
      | newExternalAddrCandidate addr => simp [applyOp, on_swarm_event]
      | externalAddrConfirmedEv addr => simp [applyOp, on_swarm_event]
      | connectionEstablished peer conn ra => simp [applyOp, on_swarm_event]
      | connectionClosed peer conn =>
          simp [applyOp, on_swarm_event, handle_no_connection]
      | dialFailure op conn =>
          cases op <;> simp [applyOp, on_swarm_event, handle_no_connection]
      | otherEv => simp [applyOp, on_swarm_event]
  | handler peer conn ev => exact handler_already_tested b peer conn ev
  | validate addr => simp [applyOp, validate_addr]
  | pollStep => exact (poll_state_fields b).2.1

theorem run_already_tested (b : Behaviour) (ops : List Op) :
    (run b ops).already_tested = b.already_tested := by
  induction ops generalizing b with
  | nil => rfl
  | cons op rest ih =>
      show (run (applyOp b op) rest).already_tested = b.already_tested
      rw [ih, applyOp_already_tested]

/-- C10: `already_tested` is empty in the initial state and no operation
inserts into it, so it is empty in every reachable state; consequently
the scheduler filter against `already_tested` removes nothing. -/
theorem already_tested_always_empty (rng : Nat) (cfg : Config) (ops : List Op) :
    (run (Behaviour.new rng cfg) ops).already_tested = [] ∧
    (∀ s : Behaviour, s.already_tested = [] →
      eligible_entries s = s.address_candidates.filter (fun p => !p.2.is_tested)) := by
  constructor
  · rw [run_already_tested]
    rfl
  · intro s hs
    unfold eligible_entries
    rw [hs]
    rw [List.filter_eq_self]
    intro q _
    simp

/-- Witness for the C10 theorem: a one-operation run, and a concrete
state with an empty `already_tested` where the filter is the identity. -/
theorem already_tested_always_empty_witness :
    (run (Behaviour.new 0 Config.default) [Op.validate [Proto.other "tcp"]]).already_tested
        = [] ∧
    eligible_entries { Behaviour.new 0 Config.default with address_candidates := [([Proto.other "tcp"], { score := 1, is_tested := false })] } =
      ({ Behaviour.new 0 Config.default with address_candidates := [([Proto.other "tcp"], { score := 1, is_tested := false })] } : Behaviour).address_candidates.filter
        (fun p => !p.2.is_tested) :=
  ⟨(already_tested_always_empty 0 Config.default [Op.validate [Proto.other "tcp"]]).1,
    (already_tested_always_empty 0 Config.default []).2
      { Behaviour.new 0 Config.default with address_candidates := [([Proto.other "tcp"], { score := 1, is_tested := false })] }
      (by decide)⟩

/-- A key of the address book whose every entry is marked tested: the
invariant that keeps an address out of all future probe batches. -/
def tested_key (a : Multiaddr) (l : List (Multiaddr × AddressInfo)) : Prop :=
  (∃ p, p ∈ l ∧ p.1 = a) ∧ (∀ p, p ∈ l → p.1 = a → p.2.is_tested = true)

theorem tested_key_modifyP (a k : Multiaddr) (l : List (Multiaddr × AddressInfo))
    (f : AddressInfo → AddressInfo) (hf : ∀ v, v.is_tested = true → (f v).is_tested = true)
    (h : tested_key a l) : tested_key a (AL.modifyP l k f) := by
  obtain ⟨⟨p0, hp0, hp0a⟩, hall⟩ := h
  constructor
  · refine ⟨if p0.1 = k then (p0.1, f p0.2) else p0, List.mem_map.mpr ⟨p0, hp0, rfl⟩, ?_⟩
    by_cases hc : p0.1 = k
    · rw [if_pos hc]
      exact hp0a
    · rw [if_neg hc]
      exact hp0a
  · intro q hq hqa
    obtain ⟨p, hp, himg⟩ := List.mem_map.mp hq
    subst himg
    by_cases hc : p.1 = k
    · rw [if_pos hc] at hqa ⊢
      exact hf p.2 (hall p hp hqa)
    · rw [if_neg hc] at hqa ⊢
      exact hall p hp hqa

theorem tested_key_entryOrDefault (a k : Multiaddr) (l : List (Multiaddr × AddressInfo))
    (d : AddressInfo) (h : tested_key a l) : tested_key a (AL.entryOrDefault l k d) := by
  obtain ⟨⟨p0, hp0, hp0a⟩, hall⟩ := h
  unfold AL.entryOrDefault
  by_cases hc : l.any (fun p => p.1 = k)
  · simp only [hc, if_pos rfl]
    exact ⟨⟨p0, hp0, hp0a⟩, hall⟩
  · simp only [hc, Bool.false_eq_true, if_false]
    constructor
    · exact ⟨p0, List.mem_append_left _ hp0, hp0a⟩
    · intro q hq hqa
      rcases List.mem_append.mp hq with hql | hqr
      · exact hall q hql hqa
      · exfalso
        have hqk : q = (k, d) := by simpa using hqr
        apply hc
        rw [List.any_eq_true]
        refine ⟨p0, hp0, ?_⟩
        simp [hp0a, ← hqa, hqk]

theorem applyOp_tested_key (a : Multiaddr) (b : Behaviour) (op : Op)
    (h : tested_key a b.address_candidates) :
    tested_key a (applyOp b op).address_candidates := by
  cases op with
  | swarm ev =>
      cases ev with
      | newExternalAddrCandidate addr =>
          show tested_key a (on_swarm_event b _).address_candidates
          simp only [on_swarm_event]
          exact tested_key_modifyP a addr _ _ (fun v hv => hv)
            (tested_key_entryOrDefault a addr _ _ h)
      | externalAddrConfirmedEv addr =>
          show tested_key a (on_swarm_event b _).address_candidates
          simp only [on_swarm_event]
          exact tested_key_modifyP a addr _ _ (fun v _ => rfl) h
      | connectionEstablished peer conn ra =>
          show tested_key a (on_swarm_event b _).address_candidates
          simp only [on_swarm_event]
          exact h
      | connectionClosed peer conn =>
          show tested_key a (on_swarm_event b _).address_candidates
          simp only [on_swarm_event]
          rw [(handle_no_connection_fields b peer conn).2.2.1]
          exact h
      | dialFailure po conn =>
          show tested_key a (on_swarm_event b _).address_candidates
          cases po with
          | none => simp [on_swarm_event]; exact h
          | some peer =>
              simp only [on_swarm_event]
              rw [(handle_no_connection_fields b peer conn).2.2.1]
              exact h
      | otherEv => simpa [applyOp, on_swarm_event] using h
  | handler peer conn ev =>
      show tested_key a (on_connection_handler_event b peer conn ev).address_candidates
      rcases handler_ac_cases b peer conn ev with hsame | ⟨addr, hmod⟩
      · rw [hsame]
        exact h
      · rw [hmod]
        exact tested_key_modifyP a addr _ _ (fun v _ => rfl) h
  | validate addr =>
      show tested_key a (validate_addr b addr).address_candidates
      simp only [validate_addr]
      exact tested_key_modifyP a addr _ _ (fun v _ => rfl) h
  | pollStep =>
      show tested_key a ((poll b).2).address_candidates
      rw [(poll_state_fields b).1]
      exact h

theorem run_tested_key (a : Multiaddr) (b : Behaviour) (ops : List Op)
    (h : tested_key a b.address_candidates) :
    tested_key a (run b ops).address_candidates := by
  induction ops generalizing b with
  | nil => exact h
  | cons op rest ih =>
      show tested_key a (run (applyOp b op) rest).address_candidates
      exact ih (applyOp b op) (applyOp_tested_key a b op h)

theorem validate_addr_tested_key (b : Behaviour) (a : Multiaddr) (i : AddressInfo)
    (hmem : (a, i) ∈ b.address_candidates) :
    tested_key a (validate_addr b a).address_candidates := by
  simp only [validate_addr]
  constructor
  · exact ⟨(a, { i with is_tested := true }),
      List.mem_map.mpr ⟨(a, i), hmem, by simp⟩, rfl⟩
  · intro q hq hqa
    obtain ⟨p, hp, himg⟩ := List.mem_map.mp hq
    subst himg
    by_cases hc : p.1 = a
    · rw [if_pos hc]
    · rw [if_neg hc] at hqa
      exact absurd hqa hc

theorem select_batch_sub_eligible (b : Behaviour) :
    ∀ x, x ∈ select_batch b → ∃ i, (x, i) ∈ eligible_entries b := by
  intro x hx
  rw [select_batch_eq_take_map] at hx
  obtain ⟨q, hq, hq1⟩ := List.mem_map.mp hx
  have hq_elig : q ∈ eligible_entries b := by
    have := List.mem_of_mem_take hq
    rw [List.mem_reverse, List.mem_insertionSort] at this
    exact this
  refine ⟨q.2, ?_⟩
  have : q = (x, q.2) := by
    rw [Prod.ext_iff]
    exact ⟨hq1, rfl⟩
  rw [← this]
  exact hq_elig

theorem eligible_entry_props (b : Behaviour) :
    ∀ q, q ∈ eligible_entries b → q ∈ b.address_candidates ∧ q.2.is_tested = false ∧
      b.already_tested.contains q.1 = false := by
  intro q hq
  simp only [eligible_entries, List.mem_filter] at hq
  refine ⟨hq.1.1, by simpa using hq.1.2, by simpa using hq.2⟩

theorem inject_notify_addrs (s : Behaviour) (peer : PeerId) (conn : ConnectionId)
    (req : DialRequest)
    (heq : (inject_address_candiate_test s).pending_events =
      s.pending_events ++ [ToSwarmEv.notifyHandler peer conn req]) :
    req.addrs = select_batch s := by
  by_cases h1 : s.peer_info.all (fun p => !p.2.supports_autonat)
  · rw [show inject_address_candiate_test s = s by
      simp [inject_address_candiate_test, h1]] at heq
    exact absurd heq (pending_append_ne _ _)
  by_cases h2 : s.address_candidates.isEmpty
  · rw [show inject_address_candiate_test s = s by
      simp [inject_address_candiate_test, h1, h2]] at heq
    exact absurd heq (pending_append_ne _ _)
  by_cases h3 : s.address_candidates.all (fun p => p.2.is_tested)
  · rw [show inject_address_candiate_test s = s by
      simp [inject_address_candiate_test, h1, h2, h3]] at heq
    exact absurd heq (pending_append_ne _ _)
  by_cases h4 : (eligible_entries s).isEmpty
  · rw [show inject_address_candiate_test s = s by
      simp [inject_address_candiate_test, h1, h2, h3, h4]] at heq
    exact absurd heq (pending_append_ne _ _)
  cases hc : rand_choose (rngStep s.rng).1
      (s.peer_info.filter (fun q => q.2.supports_autonat)) with
  | none =>
      rw [show (inject_address_candiate_test s).pending_events = s.pending_events by
        simp [inject_address_candiate_test, h1, h2, h3, h4, hc]] at heq
      exact absurd heq (pending_append_ne _ _)
  | some cq =>
      have hmain : (inject_address_candiate_test s).pending_events =
          (submit_req_for_peer { s with rng := (rngStep s.rng).2 } cq.2.peer_id
            (select_batch s)).pending_events := by
        simp [inject_address_candiate_test, h1, h2, h3, h4, hc]
      rcases submit_req_for_peer_cases { s with rng := (rngStep s.rng).2 }
          cq.2.peer_id (select_batch s) with hsub | ⟨q, hfind, hsub⟩
      · rw [hmain, hsub] at heq
        exact absurd heq (pending_append_ne _ _)
      · rw [hmain, hsub] at heq
        have hsing := List.append_cancel_left heq
        have hev : ToSwarmEv.notifyHandler cq.2.peer_id q.1
            { nonce := (rngStep { s with rng := (rngStep s.rng).2 }.rng).1 % 2 ^ 64,
              addrs := select_batch s } = ToSwarmEv.notifyHandler peer conn req := by
          simpa using hsing
        rw [ToSwarmEv.notifyHandler.injEq] at hev
        rw [← hev.2.2]

/-- C6: every address of a probe batch is an untested candidate not in
`already_tested` at selection time; after `validate_addr(a)` on a known
candidate `a`, no later tick's batch — hence no later `DialRequest`
payload, which always equals the tick state's batch — contains `a`. -/
theorem no_probe_of_tested_addresses (b : Behaviour) :
    (∀ x, x ∈ select_batch b →
      (∃ i, (x, i) ∈ b.address_candidates ∧ i.is_tested = false) ∧
      b.already_tested.contains x = false) ∧
    (∀ a i ops, (a, i) ∈ b.address_candidates →
      ¬a ∈ select_batch (run (validate_addr b a) ops)) ∧
    (∀ s : Behaviour, ∀ peer conn req,
      (inject_address_candiate_test s).pending_events =
        s.pending_events ++ [ToSwarmEv.notifyHandler peer conn req] →
      req.addrs = select_batch s) := by
  refine ⟨?_, ?_, ?_⟩
  · intro x hx
    obtain ⟨i, hi⟩ := select_batch_sub_eligible b x hx
    have hp := eligible_entry_props b (x, i) hi
    exact ⟨⟨i, hp.1, hp.2.1⟩, hp.2.2⟩
  · intro a i ops hmem hsel
    have htk := run_tested_key a (validate_addr b a) ops (validate_addr_tested_key b a i hmem)
    obtain ⟨j, hj⟩ := select_batch_sub_eligible _ a hsel
    have hp := eligible_entry_props _ (a, j) hj
    have htest := htk.2 (a, j) hp.1 rfl
    rw [hp.2.1] at htest
    exact Bool.noConfusion htest
  · intro s peer conn req heq
    exact inject_notify_addrs s peer conn req heq

/-- Witness for the C6 theorem: a known candidate is validated, and the
immediately following tick selects nothing containing it. -/
theorem no_probe_of_tested_addresses_witness :
    ¬([Proto.other "tcp"] : Multiaddr) ∈ select_batch (run (validate_addr
      { Behaviour.new 0 Config.default with address_candidates := [([Proto.other "tcp"], { score := 1, is_tested := false })] }
      [Proto.other "tcp"]) [Op.pollStep]) :=
  (no_probe_of_tested_addresses
    { Behaviour.new 0 Config.default with address_candidates := [([Proto.other "tcp"], { score := 1, is_tested := false })] }).2.1
    [Proto.other "tcp"] { score := 1, is_tested := false } [Op.pollStep] (by decide)
